import Mathlib

/-!
Verification of the uv-threadpool-benchmark suite.

Shallow embedding of the core of the repository:

* `src/lib/utils.js` — the statistics engine (`calculateStats`) and the
  system profiler (`getAutoSize`);
* `src/run-all-benchmarks.js` — the configuration orchestrator
  (`runBenchmark` / the `main` sweep loop);
* `src/compare-results.js` — the comparative analyzer
  (`calculateImprovement`, the improvement/regression/neutral
  classification of `printSummaryTable`, and the per-suite skip logic of
  `printComparisonTable`).

Modelling conventions:

* JavaScript numbers (IEEE-754 doubles) are modelled as exact rationals
  `ℚ`; array indices such as `Math.floor(sorted.length * 0.95)` become
  natural-number arithmetic `n * 95 / 100`.  On every concrete value the
  claims mention the double computation and the exact computation agree.
* `Math.sqrt` is irrational-valued, so the summary record carries the
  exact `variance` (the square of the source's `stdDev` field,
  `stdDev = Math.sqrt(variance)` on line `const stdDev = ...` of
  `calculateStats`).  Since `sqrt` is injective on nonnegative reals,
  any claim equating standard deviations is settled by equating the
  variances.
* The JavaScript result objects keyed by threadpool size are modelled by
  entry lists in the object's enumeration order: ECMAScript enumerates
  integer-like string keys first, in ascending numeric order, and only
  then the remaining string keys in insertion order.  This order is what
  `JSON.stringify` (the persisted combined artifact) and
  `Object.entries` (the analyzer) observe.
-/

namespace UVBench

/-! ### Statistics engine (`src/lib/utils.js`, `calculateStats`) -/

/-- Ascending numeric sort, the `[...times].sort((a, b) => a - b)` of the
source.  Insertion sort gives the same list as any comparison sort here:
`≤` on `ℚ` is a total order and equal rationals are identical. -/
def sortAsc (times : List ℚ) : List ℚ := times.insertionSort (· ≤ ·)

/-- The summary object returned by `calculateStats`.  The source stores
`stdDev = Math.sqrt(variance)`; we carry the exact `variance` instead
(see the module docstring). -/
structure Stats where
  min : ℚ
  max : ℚ
  mean : ℚ
  median : ℚ
  variance : ℚ
  p95 : ℚ
  p99 : ℚ
  samples : ℕ
deriving DecidableEq, Repr

/-- The body of `calculateStats` after the initial sort: every field is
computed from the ascending-sorted array `sorted`. -/
def statsOfSorted (sorted : List ℚ) : Stats :=
  let sum := sorted.foldl (· + ·) 0
  let mean := sum / (sorted.length : ℚ)
  let variance := (sorted.foldl (fun acc t => acc + (t - mean) ^ 2) 0) / (sorted.length : ℚ)
  { min := sorted.getD 0 0
    max := sorted.getD (sorted.length - 1) 0
    mean := mean
    median := sorted.getD (sorted.length / 2) 0
    variance := variance
    p95 := sorted.getD (sorted.length * 95 / 100) 0
    p99 := sorted.getD (sorted.length * 99 / 100) 0
    samples := sorted.length }

/-- `calculateStats(times)` from `src/lib/utils.js`. -/
def calculateStats (times : List ℚ) : Stats := statsOfSorted (sortAsc times)

/-! ### System profiler (`src/lib/utils.js`, `getAutoSize`) -/

/-- `getAutoSize()`: `Math.min(Math.max(4, os.availableParallelism()), 1024)`,
as a function of the host's reported available parallelism. -/
def getAutoSize (availableParallelism : ℕ) : ℕ :=
  min (max 4 availableParallelism) 1024

/-! ### Spec-side statistics definitions

These follow the wording of the specification (section 4.2), to be
compared against the source-derived `calculateStats`. -/

/-- Spec: `mean` = arithmetic mean of the samples. -/
def specMean (xs : List ℚ) : ℚ := xs.sum / (xs.length : ℚ)

/-- Spec: population variance — sum of squared deviations divided by `n`
(not `n - 1`); the spec's `stddev` is its square root. -/
def specPopVariance (xs : List ℚ) : ℚ :=
  ((xs.map (fun t => (t - specMean xs) ^ 2)).sum) / (xs.length : ℚ)

/-- Spec: `median` = element at index `floor(n/2)` of the
ascending-sorted sequence (upper-median convention). -/
def specMedian (xs : List ℚ) : ℚ := (sortAsc xs).getD (xs.length / 2) 0

/-- Spec: `p95` = element at index `floor(n*0.95)` of the sorted
sequence, the index clamped to `n-1` if it would be out of range. -/
def specP95 (xs : List ℚ) : ℚ :=
  (sortAsc xs).getD (min (xs.length * 95 / 100) (xs.length - 1)) 0

/-- Spec: `p99` = element at index `floor(n*0.99)` of the sorted
sequence, the index clamped to `n-1` if it would be out of range. -/
def specP99 (xs : List ℚ) : ℚ :=
  (sortAsc xs).getD (min (xs.length * 99 / 100) (xs.length - 1)) 0

/-! ### Helper lemmas about `sortAsc` and folds -/

theorem sortAsc_perm (xs : List ℚ) : (sortAsc xs).Perm xs :=
  List.perm_insertionSort _ xs

theorem sortAsc_sorted (xs : List ℚ) : List.Sorted (· ≤ ·) (sortAsc xs) :=
  List.sorted_insertionSort _ xs

theorem sortAsc_length (xs : List ℚ) : (sortAsc xs).length = xs.length :=
  (sortAsc_perm xs).length_eq

theorem sortAsc_sum (xs : List ℚ) : (sortAsc xs).sum = xs.sum :=
  (sortAsc_perm xs).sum_eq

theorem sortAsc_eq_of_perm {xs ys : List ℚ} (h : xs.Perm ys) :
    sortAsc xs = sortAsc ys :=
  List.eq_of_perm_of_sorted ((sortAsc_perm xs).trans (h.trans (sortAsc_perm ys).symm))
    (sortAsc_sorted xs) (sortAsc_sorted ys)

theorem foldl_add_map (f : ℚ → ℚ) :
    ∀ (l : List ℚ) (a : ℚ), l.foldl (fun acc t => acc + f t) a = a + (l.map f).sum
  | [], a => by simp
  | x :: l, a => by
    simp only [List.foldl, List.map, List.sum_cons, foldl_add_map f l (a + f x)]
    ring

theorem foldl_add_sum (l : List ℚ) : l.foldl (· + ·) 0 = l.sum := by
  have h := foldl_add_map id l 0
  simpa using h

/-- Field-level unfolding of `calculateStats`. -/
theorem calculateStats_min (xs : List ℚ) :
    (calculateStats xs).min = (sortAsc xs).getD 0 0 := rfl

theorem calculateStats_max (xs : List ℚ) :
    (calculateStats xs).max = (sortAsc xs).getD ((sortAsc xs).length - 1) 0 := rfl

theorem calculateStats_mean (xs : List ℚ) :
    (calculateStats xs).mean = ((sortAsc xs).foldl (· + ·) 0) / ((sortAsc xs).length : ℚ) := rfl

theorem calculateStats_median (xs : List ℚ) :
    (calculateStats xs).median = (sortAsc xs).getD ((sortAsc xs).length / 2) 0 := rfl

theorem calculateStats_variance (xs : List ℚ) :
    (calculateStats xs).variance =
      ((sortAsc xs).foldl (fun acc t => acc + (t - (calculateStats xs).mean) ^ 2) 0) /
        ((sortAsc xs).length : ℚ) := rfl

theorem calculateStats_p95 (xs : List ℚ) :
    (calculateStats xs).p95 = (sortAsc xs).getD ((sortAsc xs).length * 95 / 100) 0 := rfl

theorem calculateStats_p99 (xs : List ℚ) :
    (calculateStats xs).p99 = (sortAsc xs).getD ((sortAsc xs).length * 99 / 100) 0 := rfl

theorem calculateStats_mean_eq_specMean (xs : List ℚ) :
    (calculateStats xs).mean = specMean xs := by
  rw [calculateStats_mean, foldl_add_sum, sortAsc_sum, sortAsc_length, specMean]

/-- `getD` at an in-range index is a member of the list. -/
theorem getD_mem_of_lt (l : List ℚ) (i : ℕ) (h : i < l.length) : l.getD i 0 ∈ l := by
  rw [List.getD_eq_getElem l 0 h]
  exact List.getElem_mem h

/-- On a `≤`-sorted list, `getD` is monotone in the index. -/
theorem sorted_getD_le (l : List ℚ) (hs : List.Sorted (· ≤ ·) l) {i j : ℕ}
    (hij : i ≤ j) (hj : j < l.length) : l.getD i 0 ≤ l.getD j 0 := by
  have hi : i < l.length := lt_of_le_of_lt hij hj
  rw [List.getD_eq_getElem l 0 hi, List.getD_eq_getElem l 0 hj]
  have h2 : (⟨i, hi⟩ : Fin l.length) ≤ ⟨j, hj⟩ := Fin.mk_le_mk.mpr hij
  have h3 := hs.rel_get_of_le h2
  simpa [List.get_eq_getElem] using h3

/-! ### Claims about the statistics engine and the profiler -/

/-- Claim C1: for every non-empty sequence of duration samples,
`calculateStats` returns `mean` equal to the arithmetic mean, a standard
deviation that is the population one (sum of squared deviations divided
by `n`, not `n - 1`; the source's `stdDev` is the square root of the
`variance` field proved here, and square roots of equal nonnegative
values are equal), and `median` equal to the element at index
`floor(n/2)` of the ascending-sorted sequence (upper-median convention:
for `[1,2,3,4]` the median is `3`, checked in the witness). -/
theorem calculateStats_matches_spec (xs : List ℚ) (_hxs : xs ≠ []) :
    (calculateStats xs).mean = specMean xs ∧
    (calculateStats xs).variance = specPopVariance xs ∧
    (calculateStats xs).median = specMedian xs := by
  refine ⟨calculateStats_mean_eq_specMean xs, ?_, ?_⟩
  · rw [calculateStats_variance, calculateStats_mean_eq_specMean,
      foldl_add_map (fun t => (t - specMean xs) ^ 2), specPopVariance, sortAsc_length]
    simp only [zero_add]
    congr 1
    exact ((sortAsc_perm xs).map _).sum_eq
  · rw [calculateStats_median, sortAsc_length, specMedian]

theorem calculateStats_matches_spec_w :
    (calculateStats [1, 2, 3, 4]).median = specMedian [1, 2, 3, 4] ∧
    (calculateStats [1, 2, 3, 4]).median = 3 :=
  ⟨(calculateStats_matches_spec [1, 2, 3, 4] (by decide)).2.2, by decide⟩

/-- Claim C2: `p95`/`p99` are the elements at indices `floor(n*0.95)` and
`floor(n*0.99)` of the ascending-sorted sequence, positional with no
interpolation, and agree with the spec's clamped-index definition
because the indices already satisfy `idx ≤ n - 1` for every `n ≥ 1` —
so the source's unclamped indexing never reads out of bounds.  The
concrete examples (20 samples `0..19` give `p95 = 19`; 100 samples
`0..99` give `p95 = 95`) are checked in the witness. -/
theorem calculateStats_percentiles (xs : List ℚ) (hxs : xs ≠ []) :
    (calculateStats xs).p95 = specP95 xs ∧
    (calculateStats xs).p99 = specP99 xs ∧
    xs.length * 95 / 100 ≤ xs.length - 1 ∧
    xs.length * 99 / 100 ≤ xs.length - 1 := by
  have hn : 1 ≤ xs.length := List.length_pos.mpr hxs
  have h95 : xs.length * 95 / 100 ≤ xs.length - 1 := by omega
  have h99 : xs.length * 99 / 100 ≤ xs.length - 1 := by omega
  refine ⟨?_, ?_, h95, h99⟩
  · rw [calculateStats_p95, sortAsc_length, specP95, min_eq_left h95]
  · rw [calculateStats_p99, sortAsc_length, specP99, min_eq_left h99]

/-- Ascending sample sequence `0, 1, ..., n-1` (in milliseconds). -/
def ascSamples (n : ℕ) : List ℚ := (List.range n).map (fun i => (i : ℚ))

theorem calculateStats_percentiles_w :
    (calculateStats (ascSamples 20)).p95 = specP95 (ascSamples 20) ∧
    (calculateStats (ascSamples 20)).p95 = 19 ∧
    (calculateStats (ascSamples 100)).p95 = 95 :=
  ⟨(calculateStats_percentiles (ascSamples 20) (by decide)).1, by decide, by decide⟩

/-- Claim C6: `getAutoSize` is `clamp(availableParallelism, 4, 1024)`:
never below 4, never above 1024, the identity in between; in particular
parallelism 1 gives 4, 12 gives 12, and 5000 gives 1024. -/
theorem getAutoSize_clamps (p : ℕ) :
    4 ≤ getAutoSize p ∧ getAutoSize p ≤ 1024 ∧
    (4 ≤ p → p ≤ 1024 → getAutoSize p = p) ∧
    getAutoSize 1 = 4 ∧ getAutoSize 12 = 12 ∧ getAutoSize 5000 = 1024 := by
  unfold getAutoSize
  omega

theorem getAutoSize_clamps_w : 4 ≤ getAutoSize 12 ∧ getAutoSize 12 = 12 :=
  ⟨(getAutoSize_clamps 12).1, (getAutoSize_clamps 12).2.2.1 (by decide) (by decide)⟩

/-- Claim C8: `calculateStats` depends only on the multiset of samples:
two sample sequences that are permutations of each other give identical
summaries in every field (the initial sort normalizes the order). -/
theorem calculateStats_perm_invariant (xs ys : List ℚ) (h : xs.Perm ys) :
    calculateStats xs = calculateStats ys := by
  unfold calculateStats
  rw [sortAsc_eq_of_perm h]

theorem calculateStats_perm_invariant_w :
    calculateStats [2, 1, 3] = calculateStats [3, 1, 2] :=
  calculateStats_perm_invariant [2, 1, 3] [3, 1, 2] (by decide)

/-- Claim C10: for every non-empty sample sequence the summary satisfies
the full chain `min ≤ median ≤ p95 ≤ p99 ≤ max`, and each of those five
fields is an element of the input multiset: the five indices
`0 ≤ floor(n/2) ≤ floor(n*0.95) ≤ floor(n*0.99) ≤ n-1` all address the
same ascending-sorted array. -/
theorem calculateStats_order_chain (xs : List ℚ) (hxs : xs ≠ []) :
    ((calculateStats xs).min ≤ (calculateStats xs).median ∧
      (calculateStats xs).median ≤ (calculateStats xs).p95 ∧
      (calculateStats xs).p95 ≤ (calculateStats xs).p99 ∧
      (calculateStats xs).p99 ≤ (calculateStats xs).max) ∧
    ((calculateStats xs).min ∈ xs ∧ (calculateStats xs).median ∈ xs ∧
      (calculateStats xs).p95 ∈ xs ∧ (calculateStats xs).p99 ∈ xs ∧
      (calculateStats xs).max ∈ xs) := by
  have hn : 1 ≤ xs.length := List.length_pos.mpr hxs
  have hlen : (sortAsc xs).length = xs.length := sortAsc_length xs
  have hsorted := sortAsc_sorted xs
  simp only [calculateStats_min, calculateStats_max, calculateStats_median,
    calculateStats_p95, calculateStats_p99, hlen]
  refine ⟨⟨?_, ?_, ?_, ?_⟩, ?_, ?_, ?_, ?_, ?_⟩
  · exact sorted_getD_le _ hsorted (by omega) (by omega)
  · exact sorted_getD_le _ hsorted (by omega) (by omega)
  · exact sorted_getD_le _ hsorted (by omega) (by omega)
  · exact sorted_getD_le _ hsorted (by omega) (by omega)
  · exact (sortAsc_perm xs).mem_iff.mp (getD_mem_of_lt _ _ (by omega))
  · exact (sortAsc_perm xs).mem_iff.mp (getD_mem_of_lt _ _ (by omega))
  · exact (sortAsc_perm xs).mem_iff.mp (getD_mem_of_lt _ _ (by omega))
  · exact (sortAsc_perm xs).mem_iff.mp (getD_mem_of_lt _ _ (by omega))
  · exact (sortAsc_perm xs).mem_iff.mp (getD_mem_of_lt _ _ (by omega))

theorem calculateStats_order_chain_w :
    (calculateStats [5, 1, 4]).min ≤ (calculateStats [5, 1, 4]).median ∧
    (calculateStats [5, 1, 4]).min ∈ [5, 1, 4] :=
  ⟨(calculateStats_order_chain [5, 1, 4] (by decide)).1.1,
   (calculateStats_order_chain [5, 1, 4] (by decide)).2.1⟩

/-! ### Configuration orchestrator (`src/run-all-benchmarks.js`) -/

/-- The keys of the `BENCHMARKS` table: the known workload suites. -/
def BENCHMARKS : List String := ["fs", "crypto", "dns", "zlib", "mixed", "memory"]

/-- A threadpool-size configuration as requested on the command line: an
explicit integer, or the sentinel `auto`. -/
inductive SizeKey where
  | num (n : ℕ)
  | auto
deriving DecidableEq, Repr

/-- One row of a trailing JSON payload's `results` array (the suites emit
`{name, mean, median, stdDev, p95}` per benchmark). -/
structure ResultRow where
  name : String
  mean : ℚ
  median : ℚ
  stdDev : ℚ
  p95 : ℚ
deriving DecidableEq, Repr

/-- The trailing structured payload a benchmark process prints after the
`JSON Output:` marker line. -/
structure Payload where
  benchmark : String
  threadpoolSize : String
  results : List ResultRow
deriving DecidableEq, Repr

/-- What the orchestrator observes of one spawned trial process: either
the child's `error` event (spawn failure), or an exit with a code and
the result of locating and parsing the trailing payload (`none` when the
marker line is absent or `JSON.parse` throws). -/
inductive TrialOutcome where
  | spawnError (msg : String)
  | exited (code : ℕ) (payload : Option Payload)
deriving DecidableEq, Repr

/-- `runBenchmark` of `src/run-all-benchmarks.js`: the promise rejects on
the child's `error` event and on non-zero exit; on exit 0 it resolves
with the parsed payload, or with `null` (`none` here) when the payload
is missing or malformed. -/
def runBenchmarkResult : TrialOutcome → Except String (Option Payload)
  | .spawnError msg => .error msg
  | .exited 0 payload => .ok payload
  | .exited code _ => .error ("Benchmark exited with code " ++ toString code)

/-- The value `main` stores at `allResults.benchmarks[benchName][size]`:
the parsed payload on success, JSON `null` when the trailing payload was
missing or malformed, or `{ error: <message> }` when the trial promise
rejected. -/
inductive RunRecord where
  | ok (payload : Payload)
  | nullRec
  | err (msg : String)
deriving DecidableEq, Repr

/-- Whether a stored record carries an `error` field. -/
def RunRecord.isErr : RunRecord → Bool
  | .err _ => true
  | _ => false

/-- The `try`/`catch` around one pairing in `main`'s sweep loop. -/
def recordOf (outcome : TrialOutcome) : RunRecord :=
  match runBenchmarkResult outcome with
  | .ok (some payload) => .ok payload
  | .ok none => .nullRec
  | .error msg => .err msg

/-- Whether a configuration becomes an integer-like object key (`"4"`,
`"16"`, ...) rather than a plain string key (`"auto"`). -/
def SizeKey.isNumKey : SizeKey → Bool
  | .num _ => true
  | .auto => false

/-- Numeric value of an integer-like key (irrelevant for `auto`). -/
def keyVal : SizeKey → ℕ
  | .num n => n
  | .auto => 0

/-- Ascending order of integer-like object keys. -/
def numKeyLE (a b : SizeKey) : Prop := keyVal a ≤ keyVal b

instance : DecidableRel numKeyLE := fun a b => Nat.decLe (keyVal a) (keyVal b)

/-- ECMAScript own-property enumeration order of the per-suite result
object built by the sweep loop: integer-like keys first, in ascending
numeric order, then the remaining string keys (`auto`) in insertion
order.  `JSON.stringify` — which writes the persisted combined artifact
— and `Object.keys`/`Object.entries` in the analyzer all observe this
order, not the loop's insertion order. -/
def jsOrderKeys (keys : List SizeKey) : List SizeKey :=
  (keys.filter SizeKey.isNumKey).insertionSort numKeyLE ++
    keys.filter (fun k => !k.isNumKey)

/-- The inner loop of `main` for one suite: one stored record per
requested configuration, the resulting object enumerating its keys in
`jsOrderKeys` order, each key mapped to its own trial's record. -/
def sweepSuite (trial : String → SizeKey → TrialOutcome) (suite : String)
    (sizes : List SizeKey) : List (SizeKey × RunRecord) :=
  (jsOrderKeys sizes).map fun size => (size, recordOf (trial suite size))

/-- The outer loop of `main`: suites in request order (plain string keys
keep insertion order), unknown suite names skipped with a warning. -/
def sweep (trial : String → SizeKey → TrialOutcome) (benchNames : List String)
    (sizes : List SizeKey) : List (String × List (SizeKey × RunRecord)) :=
  (benchNames.filter (fun b => decide (b ∈ BENCHMARKS))).map fun b =>
    (b, sweepSuite trial b sizes)

theorem mem_jsOrderKeys {k : SizeKey} {keys : List SizeKey} :
    k ∈ jsOrderKeys keys ↔ k ∈ keys := by
  unfold jsOrderKeys
  rw [List.mem_append, List.mem_insertionSort]
  constructor
  · rintro (h | h) <;> exact (List.mem_filter.mp h).1
  · intro h
    by_cases hn : k.isNumKey
    · exact Or.inl (List.mem_filter.mpr ⟨h, hn⟩)
    · exact Or.inr (List.mem_filter.mpr ⟨h, by simp [hn]⟩)

/-! ### Comparative analyzer (`src/compare-results.js`) -/

/-- `calculateImprovement(baseline, current)`: JavaScript's
`if (!baseline || !current) return null` makes a zero mean on either
side yield `null`; otherwise the percentage delta. -/
def calculateImprovement (baseline current : ℚ) : Option ℚ :=
  if baseline = 0 ∨ current = 0 then none
  else some ((baseline - current) / baseline * 100)

/-- The three buckets of `printSummaryTable`. -/
inductive Verdict where
  | improvement
  | regression
  | neutral
deriving DecidableEq, Repr

/-- The classification in `printSummaryTable`: `> 5` improvement,
`< -5` regression, otherwise neutral. -/
def classify (improvement : ℚ) : Verdict :=
  if improvement > 5 then Verdict.improvement
  else if improvement < -5 then Verdict.regression
  else Verdict.neutral

/-- Classification of one matched (baseline, current) mean pair;
`printSummaryTable` skips the pair (`continue`) when
`calculateImprovement` returned `null`. -/
def classifyPair (baselineMean currentMean : ℚ) : Option Verdict :=
  (calculateImprovement baselineMean currentMean).map classify

/-- The `results` array of a stored record, when it has one (`null`
records and error records have none). -/
def RunRecord.resultsOf : RunRecord → Option (List ResultRow)
  | .ok payload => some payload.results
  | _ => none

/-- `Object.keys(results).filter(s => results[s] && !results[s].error)`
of `printComparisonTable`, in enumeration order. -/
def tableSizes (entries : List (SizeKey × RunRecord)) : List SizeKey :=
  (entries.filter fun kv =>
    match kv.2 with
    | RunRecord.ok _ => true
    | _ => false).map Prod.fst

/-- `results.find(r => r.name === testName)`. -/
def findRow (rows : List ResultRow) (testName : String) : Option ResultRow :=
  rows.find? fun r => r.name == testName

/-- `printComparisonTable` for one suite: `none` models the early return
with the `No baseline data for size ...` diagnostic; otherwise one row
per baseline test name and, per non-baseline usable size, an optional
improvement percentage (`none` prints as `N/A`). -/
def compareSuite (entries : List (SizeKey × RunRecord)) (baseline : SizeKey) :
    Option (List (String × List (SizeKey × Option ℚ))) :=
  match (entries.lookup baseline).bind RunRecord.resultsOf with
  | none => none
  | some baseRows =>
      some ((baseRows.map ResultRow.name).filterMap fun testName =>
        (findRow baseRows testName).map fun baselineTest =>
          (testName,
            ((tableSizes entries).filter fun s => !(s == baseline)).map fun s =>
              (s, match (entries.lookup s).bind RunRecord.resultsOf with
                  | none => none
                  | some rows =>
                      (findRow rows testName).bind fun sizeTest =>
                        calculateImprovement baselineTest.mean sizeTest.mean)))

/-- The analyzer's per-suite loop (`main` / `printSummaryTable`): every
suite of the combined result set is processed independently. -/
def compareAll (benches : List (String × List (SizeKey × RunRecord)))
    (baseline : SizeKey) :
    List (String × Option (List (String × List (SizeKey × Option ℚ)))) :=
  benches.map fun suite => (suite.1, compareSuite suite.2 baseline)

/-! ### Claims about the orchestrator -/

/-- Claim C4 counterexample: a trial process that exits 0 with a missing
or malformed trailing payload is recorded as JSON `null` — a record with
no `error` field — contradicting the claim that such a pairing gets a
record whose `error` field is set to a diagnostic string. -/
theorem recordOf_parse_failure_cex :
    recordOf (TrialOutcome.exited 0 none) = RunRecord.nullRec ∧
    (recordOf (TrialOutcome.exited 0 none)).isErr = false :=
  ⟨rfl, rfl⟩

/-- Claim C4 (amended): a pairing whose trial rejects — spawn failure or
non-zero exit — is recorded as an error record carrying the diagnostic
message, and the sweep still produces an entry for every requested
pairing of the suite; but a pairing whose process exits 0 with a missing
or malformed trailing payload is recorded as JSON `null` (no `error`
field), not as an error record. -/
theorem recordOf_error_handling (c : ℕ) (p : Option Payload) (m : String)
    (trial : String → SizeKey → TrialOutcome) (suite : String)
    (sizes : List SizeKey) (k : SizeKey) (hc : c ≠ 0) (hk : k ∈ sizes) :
    recordOf (TrialOutcome.exited c p) =
      RunRecord.err ("Benchmark exited with code " ++ toString c) ∧
    recordOf (TrialOutcome.spawnError m) = RunRecord.err m ∧
    recordOf (TrialOutcome.exited 0 none) = RunRecord.nullRec ∧
    (k, recordOf (trial suite k)) ∈ sweepSuite trial suite sizes := by
  refine ⟨?_, rfl, rfl, ?_⟩
  · cases c with
    | zero => exact absurd rfl hc
    | succ n => rfl
  · unfold sweepSuite
    exact List.mem_map.mpr ⟨k, mem_jsOrderKeys.mpr hk, rfl⟩

theorem recordOf_error_handling_w :
    recordOf (TrialOutcome.exited 1 none) =
      RunRecord.err ("Benchmark exited with code " ++ toString 1) ∧
    recordOf (TrialOutcome.exited 0 none) = RunRecord.nullRec := by
  have h := recordOf_error_handling 1 none "m" (fun _ _ => TrialOutcome.exited 1 none)
    "fs" [SizeKey.num 4] (SizeKey.num 4) (by decide) (by decide)
  exact ⟨h.1, h.2.2.1⟩

/-- Claim C5: for a sweep over known suites, the combined result set
contains an entry for every (suite, configuration) pair of the cross
product, regardless of individual trial failures — and a pairing whose
trial exited non-zero carries the error-flagged record. -/
theorem sweep_complete (trial : String → SizeKey → TrialOutcome)
    (benchNames : List String) (sizes : List SizeKey) (b : String) (k : SizeKey)
    (hb : b ∈ benchNames) (hknown : b ∈ BENCHMARKS) (hk : k ∈ sizes) :
    (b, sweepSuite trial b sizes) ∈ sweep trial benchNames sizes ∧
    (k, recordOf (trial b k)) ∈ sweepSuite trial b sizes ∧
    (∀ c p, trial b k = TrialOutcome.exited c p → c ≠ 0 →
      recordOf (trial b k) =
        RunRecord.err ("Benchmark exited with code " ++ toString c)) := by
  refine ⟨?_, ?_, ?_⟩
  · unfold sweep
    exact List.mem_map.mpr ⟨b, List.mem_filter.mpr ⟨hb, by simp [hknown]⟩, rfl⟩
  · unfold sweepSuite
    exact List.mem_map.mpr ⟨k, mem_jsOrderKeys.mpr hk, rfl⟩
  · intro c p heq hc
    rw [heq]
    cases c with
    | zero => exact absurd rfl hc
    | succ n => rfl

/-- A payload as a successful suite emits it (contents irrelevant). -/
def examplePayload : Payload :=
  { benchmark := "fs", threadpoolSize := "4", results := [] }

/-- The sweep of the claim's example: suites `fs` and `crypto`, configs
`4` and `auto`, where `crypto`'s trial exits with code 1 under `auto`
and every other pairing succeeds. -/
def exampleTrial : String → SizeKey → TrialOutcome := fun suite size =>
  if suite = "crypto" ∧ size = SizeKey.auto then TrialOutcome.exited 1 none
  else TrialOutcome.exited 0 (some examplePayload)

theorem sweep_complete_w :
    ("crypto", sweepSuite exampleTrial "crypto" [SizeKey.num 4, SizeKey.auto]) ∈
      sweep exampleTrial ["fs", "crypto"] [SizeKey.num 4, SizeKey.auto] ∧
    (SizeKey.auto, recordOf (exampleTrial "crypto" SizeKey.auto)) ∈
      sweepSuite exampleTrial "crypto" [SizeKey.num 4, SizeKey.auto] ∧
    recordOf (exampleTrial "crypto" SizeKey.auto) =
      RunRecord.err ("Benchmark exited with code " ++ toString 1) := by
  have h := sweep_complete exampleTrial ["fs", "crypto"] [SizeKey.num 4, SizeKey.auto]
    "crypto" SizeKey.auto (by decide) (by decide) (by decide)
  exact ⟨h.1, h.2.1, h.2.2 1 none (by decide) (by decide)⟩

/-- A trial oracle where every pairing succeeds. -/
def trialAllOk : String → SizeKey → TrialOutcome := fun _ _ =>
  TrialOutcome.exited 0 (some examplePayload)

/-- Claim C9 counterexample: requesting sizes `16,4,auto` does not yield
the suite's records in request order — integer-like keys enumerate in
ascending numeric order, so the combined result set holds them as
`4,16,auto`. -/
theorem sweep_order_cex :
    (sweepSuite trialAllOk "fs"
        [SizeKey.num 16, SizeKey.num 4, SizeKey.auto]).map Prod.fst =
      [SizeKey.num 4, SizeKey.num 16, SizeKey.auto] ∧
    (sweepSuite trialAllOk "fs"
        [SizeKey.num 16, SizeKey.num 4, SizeKey.auto]).map Prod.fst ≠
      [SizeKey.num 16, SizeKey.num 4, SizeKey.auto] := by
  decide

/-- Claim C9 (amended): the RunRecords for a given suite appear in the
combined result set in the object's enumeration order — explicit
integer sizes first in ascending numeric order, then the non-numeric
keys (`auto`) in request order — with exactly the requested
configurations present and each key mapped to its own trial's record;
request order is preserved exactly when the numeric sizes are requested
in ascending order before any non-numeric one (e.g. the default
`4,auto`), while e.g. `16,4,auto` is stored as `4,16,auto`. -/
theorem sweep_ordering (trial : String → SizeKey → TrialOutcome) (suite : String)
    (sizes : List SizeKey) :
    (sweepSuite trial suite sizes).map Prod.fst = jsOrderKeys sizes ∧
    (jsOrderKeys sizes).Perm sizes ∧
    (∀ kv ∈ sweepSuite trial suite sizes, kv.2 = recordOf (trial suite kv.1)) ∧
    (∀ nums autos, sizes = nums ++ autos →
      (∀ k ∈ nums, k.isNumKey = true) → (∀ k ∈ autos, k.isNumKey = false) →
      List.Sorted numKeyLE nums → jsOrderKeys sizes = sizes) := by
  refine ⟨?_, ?_, ?_, ?_⟩
  · unfold sweepSuite
    rw [List.map_map]
    exact List.map_id _ ▸ rfl
  · exact ((List.perm_insertionSort _ _).append (List.Perm.refl _)).trans
      (List.filter_append_perm _ sizes)
  · intro kv hkv
    obtain ⟨size, _, rfl⟩ := List.mem_map.mp hkv
    rfl
  · rintro nums autos rfl h1 h2 hsorted
    unfold jsOrderKeys
    rw [List.filter_append, List.filter_append,
      List.filter_eq_self.mpr h1,
      List.filter_eq_nil_iff.mpr (by intro a ha; simp [h2 a ha]),
      List.filter_eq_nil_iff.mpr (by intro a ha; simp [h1 a ha]),
      List.filter_eq_self.mpr (by intro a ha; simp [h2 a ha]),
      List.append_nil, List.nil_append, hsorted.insertionSort_eq]

theorem sweep_ordering_w :
    jsOrderKeys [SizeKey.num 4, SizeKey.auto] = [SizeKey.num 4, SizeKey.auto] ∧
    (sweepSuite trialAllOk "fs" [SizeKey.num 4, SizeKey.auto]).map Prod.fst =
      jsOrderKeys [SizeKey.num 4, SizeKey.auto] := by
  have h := sweep_ordering trialAllOk "fs" [SizeKey.num 4, SizeKey.auto]
  exact ⟨h.2.2.2 [SizeKey.num 4] [SizeKey.auto] rfl (by decide) (by decide)
    (by constructor <;> simp), h.1⟩

/-! ### Claims about the analyzer -/

theorem classify_eq_improvement_iff (x : ℚ) :
    classify x = Verdict.improvement ↔ 5 < x := by
  unfold classify
  split_ifs with h1 h2 <;> simp_all

theorem classify_eq_regression_iff (x : ℚ) :
    classify x = Verdict.regression ↔ x < -5 := by
  unfold classify
  split_ifs with h1 h2 <;> simp_all
  linarith

theorem classify_eq_neutral_iff (x : ℚ) :
    classify x = Verdict.neutral ↔ (-5 ≤ x ∧ x ≤ 5) := by
  unfold classify
  split_ifs with h1 h2
  · constructor
    · intro h
      exact absurd h (by simp)
    · rintro ⟨-, h₂⟩
      exact absurd h1 (not_lt.mpr h₂)
  · constructor
    · intro h
      exact absurd h (by simp)
    · rintro ⟨h₁, -⟩
      exact absurd h2 (not_lt.mpr h₁)
  · exact ⟨fun _ => ⟨not_lt.mp h2, not_lt.mp h1⟩, fun _ => rfl⟩

/-- Claim C3 counterexample: at baseline mean `1` and current mean `0`
(baseline non-zero) the analyzer computes no classification at all —
`calculateImprovement` returns `null` whenever `current` is falsy and
`printSummaryTable` skips the pair — although the claimed formula gives
`(1-0)/1*100 = 100 > 5`, an improvement. -/
theorem classifyPair_cex :
    classifyPair 1 0 = none ∧ (1 : ℚ) ≠ 0 ∧
    classify ((1 - 0) / 1 * 100) = Verdict.improvement := by
  refine ⟨?_, by norm_num, ?_⟩
  · unfold classifyPair calculateImprovement
    norm_num
  · rw [classify_eq_improvement_iff]
    norm_num

/-- Claim C3 (amended): for every matched pair with baseline mean and
current mean both non-zero, the analyzer computes
`improvement = (baselineMean - currentMean) / baselineMean * 100` and
classifies the pair as improvement iff `improvement > 5`, regression iff
`improvement < -5`, and neutral otherwise — in particular exactly
`±5.0%` is neutral while `5.1%` / `-5.1%` are improvement / regression
(checked in the witness). -/
theorem classifyPair_characterization (b c : ℚ) (hb : b ≠ 0) (hc : c ≠ 0) :
    calculateImprovement b c = some ((b - c) / b * 100) ∧
    classifyPair b c = some (classify ((b - c) / b * 100)) ∧
    (classifyPair b c = some Verdict.improvement ↔ 5 < (b - c) / b * 100) ∧
    (classifyPair b c = some Verdict.regression ↔ (b - c) / b * 100 < -5) ∧
    (classifyPair b c = some Verdict.neutral ↔
      (-5 ≤ (b - c) / b * 100 ∧ (b - c) / b * 100 ≤ 5)) := by
  have h1 : calculateImprovement b c = some ((b - c) / b * 100) := by
    unfold calculateImprovement
    rw [if_neg (by tauto)]
  have h2 : classifyPair b c = some (classify ((b - c) / b * 100)) := by
    rw [classifyPair, h1]
    rfl
  refine ⟨h1, h2, ?_, ?_, ?_⟩
  · rw [h2, Option.some_inj, classify_eq_improvement_iff]
  · rw [h2, Option.some_inj, classify_eq_regression_iff]
  · rw [h2, Option.some_inj, classify_eq_neutral_iff]

theorem classifyPair_characterization_w :
    classifyPair 1000 950 = some Verdict.neutral ∧
    classifyPair 1000 949 = some Verdict.improvement ∧
    classifyPair 1000 1050 = some Verdict.neutral ∧
    classifyPair 1000 1051 = some Verdict.regression := by
  have h1 := classifyPair_characterization 1000 950 (by decide) (by decide)
  have h2 := classifyPair_characterization 1000 949 (by decide) (by decide)
  have h3 := classifyPair_characterization 1000 1050 (by decide) (by decide)
  have h4 := classifyPair_characterization 1000 1051 (by decide) (by decide)
  refine ⟨h1.2.2.2.2.mpr (by norm_num), h2.2.2.1.mpr (by norm_num),
    h3.2.2.2.2.mpr (by norm_num), h4.2.2.2.1.mpr (by norm_num)⟩

/-- Claim C7: a suite whose record at the baseline key is absent, is an
error record, or is the stored JSON `null` (no `results`) is skipped
with a diagnostic (the `No baseline data for size ...` early return /
the summary's `continue`), while every other suite's comparison is
exactly what it would be on its own — the analyzer never crashes on a
missing baseline. -/
theorem compareAll_skips_bad_baseline
    (pre post : List (String × List (SizeKey × RunRecord))) (suite : String)
    (entries : List (SizeKey × RunRecord)) (baseline : SizeKey)
    (hbad : entries.lookup baseline = none ∨
      entries.lookup baseline = some RunRecord.nullRec ∨
      ∃ m, entries.lookup baseline = some (RunRecord.err m)) :
    compareSuite entries baseline = none ∧
    compareAll (pre ++ (suite, entries) :: post) baseline =
      compareAll pre baseline ++ (suite, none) :: compareAll post baseline := by
  have hnone : (entries.lookup baseline).bind RunRecord.resultsOf = none := by
    rcases hbad with h | h | ⟨m, h⟩ <;> rw [h] <;> rfl
  have hcs : compareSuite entries baseline = none := by
    unfold compareSuite
    rw [hnone]
  refine ⟨hcs, ?_⟩
  unfold compareAll
  simp only [List.map_append, List.map_cons, hcs]

/-- A suite record set holding a usable record at key `4`. -/
def okEntries : List (SizeKey × RunRecord) :=
  [(SizeKey.num 4, RunRecord.ok examplePayload)]

/-- A suite record set with no record at the baseline key `4`. -/
def badEntries : List (SizeKey × RunRecord) :=
  [(SizeKey.auto, RunRecord.ok examplePayload)]

theorem compareAll_skips_bad_baseline_w :
    compareSuite badEntries (SizeKey.num 4) = none ∧
    compareAll (("fs", okEntries) :: ("crypto", badEntries) :: []) (SizeKey.num 4) =
      compareAll [("fs", okEntries)] (SizeKey.num 4) ++
        ("crypto", none) :: compareAll [] (SizeKey.num 4) :=
  compareAll_skips_bad_baseline [("fs", okEntries)] [] "crypto" badEntries
    (SizeKey.num 4) (Or.inl (by decide))

end UVBench
